import Mathlib

/-
Verification of the lc3-emulator toolchain: a shallow embedding of the
lexer (src/assembler/lexer.rs), the two-pass parser (src/assembler/parser.rs),
the assembler entry point (src/assembler/mod.rs), the ISA codec
(src/lc3/instructions.rs) and the virtual machine core (src/lc3/mod.rs),
followed by theorems settling the specification claims against it.

Conventions of the embedding:
- Rust u16 values are Nat with explicit `% 65536` where wrap-around matters.
- Rust usize values are Nat; the one place where a usize subtraction can
  underflow (Lexer::error) is modelled with release-build wrapping
  semantics, `(n + (2^64 - 1)) % 2^64` (debug builds panic there).
- Fallible Rust functions returning Result are modelled with Except.
- The lexing and parsing loops consume at least one item per iteration;
  they are modelled with a fuel parameter set to `input length + 1`,
  which is always sufficient, so the out-of-fuel branch is unreachable.
-/

deriving instance DecidableEq for Except

/-! ## Lexer reader state (lexer.rs, struct Reader over chars)

The character Reader owns the source and tracks offset, char_in_line and
line. `next` bumps offset, and either resets char_in_line and bumps line
(on a newline) or bumps char_in_line. The remaining input is threaded as
a list alongside the counters. -/

structure LexState where
  offset : Nat
  charInLine : Nat
  line : Nat
deriving Repr, DecidableEq

/-- Effect of Reader::next on the counters when the char `c` is consumed. -/
def lexNext (st : LexState) (c : Char) : LexState :=
  if c = '\n' then { offset := st.offset + 1, charInLine := 0, line := st.line + 1 }
  else { offset := st.offset + 1, charInLine := st.charInLine + 1, line := st.line }

/-- Effect of Reader::next called at end of input: offset and char_in_line
are still incremented (the Rust code bumps them before inspecting the char). -/
def lexNextEof (st : LexState) : LexState :=
  { offset := st.offset + 1, charInLine := st.charInLine + 1, line := st.line }

/-- Repeated Reader::next over a run of consumed characters
(skip_while / take_while loops). -/
def consumeChars (st : LexState) : List Char → LexState
  | [] => st
  | c :: cs => consumeChars (lexNext st c) cs

/-! ## Character predicates

Rust char::is_whitespace / is_numeric / is_alphabetic / is_alphanumeric are
Unicode predicates; they agree with the ASCII sets below on all ASCII
characters, and every input appearing in the theorems of this file is
ASCII. -/

def rustIsWhitespace (c : Char) : Bool :=
  decide (c.toNat = 9 ∨ c.toNat = 10 ∨ c.toNat = 11 ∨ c.toNat = 12 ∨ c.toNat = 13 ∨ c.toNat = 32)

def rustIsDigit (c : Char) : Bool :=
  decide (48 ≤ c.toNat ∧ c.toNat ≤ 57)

def rustIsAlphabetic (c : Char) : Bool :=
  decide ((65 ≤ c.toNat ∧ c.toNat ≤ 90) ∨ (97 ≤ c.toNat ∧ c.toNat ≤ 122))

def rustIsAlphanumeric (c : Char) : Bool :=
  rustIsAlphabetic c || rustIsDigit c

/-! ## u16::from_str_radix (used with radix 16 and 10)

Rust parses digit by digit via char::to_digit, failing with
"invalid digit found in string" on a non-digit and with
"number too large to fit in target type" when the accumulator leaves u16
range. The inputs produced by the lexer are runs of alphanumerics, so the
optional leading sign accepted by Rust never occurs here. -/

/-- char::to_digit: value of a digit character under `radix`, if any. -/
def charDigit (radix : Nat) (c : Char) : Option Nat :=
  if 48 ≤ c.toNat ∧ c.toNat ≤ 57 then
    (if c.toNat - 48 < radix then some (c.toNat - 48) else none)
  else if 97 ≤ c.toNat ∧ c.toNat ≤ 122 then
    (if c.toNat - 87 < radix then some (c.toNat - 87) else none)
  else if 65 ≤ c.toNat ∧ c.toNat ≤ 90 then
    (if c.toNat - 55 < radix then some (c.toNat - 55) else none)
  else none

def fromStrRadixGo (radix acc : Nat) : List Char → Except String Nat
  | [] => Except.ok acc
  | c :: cs =>
    match charDigit radix c with
    | none => Except.error "invalid digit found in string"
    | some d =>
      if acc * radix + d ≤ 65535 then fromStrRadixGo radix (acc * radix + d) cs
      else Except.error "number too large to fit in target type"

def fromStrRadix (radix : Nat) (s : List Char) : Except String Nat :=
  match s with
  | [] => Except.error "cannot parse integer from empty string"
  | _ => fromStrRadixGo radix 0 s

/-- flip_sign_twos_complement (lexer.rs): `!(n - 1)` on u16. The wrapping
subtraction is `(n + 65535) % 65536` and bitwise NOT of a 16-bit value is
XOR with 65535 (on n = 0 a debug build would panic on the subtraction;
release semantics wrap). -/
def flip_sign_twos_complement (n : Nat) : Nat :=
  65535 ^^^ ((n + 65535) % 65536)

/-! ## Tokens and lex errors (lexer.rs) -/

inductive TokenKind where
  | directive (name : String)
  | symbol (name : String)
  | number (value : Nat)
  | comma
  | str (content : String)
  | newline
deriving Repr, DecidableEq

structure Token where
  kind : TokenKind
  offset : Nat
deriving Repr, DecidableEq

structure LexError where
  message : String
  line : Nat
  character : Nat
deriving Repr, DecidableEq

def USIZE_MAX : Nat := 2 ^ 64 - 1

/-- Rust usize subtraction of 1 with release (wrapping) semantics; a debug
build panics when the argument is 0. -/
def usizeSub1 (n : Nat) : Nat := (n + USIZE_MAX) % 2 ^ 64

/-- Lexer::error: builds a LexError pointing at `char_in_line - 1`. The
subtraction is on a usize counter and underflows when char_in_line = 0. -/
def lexerError (st : LexState) (message : String) : LexError :=
  { message, line := st.line, character := usizeSub1 st.charInLine }

/-! ## Lexer::lex_decimal -/

def lexDecimalDigits (st : LexState) (input : List Char) (offset : Nat)
    (negative : Bool) : Except LexError (Token × LexState × List Char) :=
  let dec := input.takeWhile rustIsAlphanumeric
  let rest := input.dropWhile rustIsAlphanumeric
  let st2 := consumeChars st dec
  match fromStrRadix 10 dec with
  | Except.ok num =>
    Except.ok (⟨TokenKind.number (if negative then flip_sign_twos_complement num else num), offset⟩,
      st2, rest)
  | Except.error e =>
    Except.error (lexerError st2 ("invalid decimal literal \x27" ++ String.mk dec ++ "\x27: " ++ e))

def lexDecimal (st : LexState) (input : List Char) (offset : Nat) :
    Except LexError (Token × LexState × List Char) :=
  match input with
  | '-' :: rest => lexDecimalDigits (lexNext st '-') rest offset true
  | _ => lexDecimalDigits st input offset false

/-! ## Lexer::lex_char: one iteration of the main lexing loop.

`c` is the peeked character; `rest` the input after it. Branches that do
not consume `c` up front (whitespace, comment, bare-decimal) operate on
`c :: rest`. Returns the emitted token (if any), the updated reader state
and the remaining input. -/

def lexStep (st : LexState) (c : Char) (rest : List Char) :
    Except LexError (Option Token × LexState × List Char) :=
  if c = '\n' then
    Except.ok (some ⟨TokenKind.newline, st.offset⟩, lexNext st c, rest)
  else if rustIsWhitespace c then
    Except.ok (none, consumeChars st ((c :: rest).takeWhile rustIsWhitespace),
      (c :: rest).dropWhile rustIsWhitespace)
  else if c = ';' then
    Except.ok (none, consumeChars st ((c :: rest).takeWhile (fun ch => ch ≠ '\n')),
      (c :: rest).dropWhile (fun ch => ch ≠ '\n'))
  else if c = 'x' then
    let offset := st.offset
    let st1 := lexNext st c
    let hex := rest.takeWhile rustIsAlphanumeric
    let rest1 := rest.dropWhile rustIsAlphanumeric
    let st2 := consumeChars st1 hex
    match fromStrRadix 16 hex with
    | Except.ok num => Except.ok (some ⟨TokenKind.number num, offset⟩, st2, rest1)
    | Except.error e =>
      Except.error (lexerError st2 ("invalid hex literal \x27x" ++ String.mk hex ++ "\x27: " ++ e))
  else if c = '#' then
    match lexDecimal (lexNext st c) rest st.offset with
    | Except.ok (t, st2, rem) => Except.ok (some t, st2, rem)
    | Except.error e => Except.error e
  else if rustIsDigit c ∨ c = '-' then
    match lexDecimal st (c :: rest) st.offset with
    | Except.ok (t, st2, rem) => Except.ok (some t, st2, rem)
    | Except.error e => Except.error e
  else if c = ',' then
    Except.ok (some ⟨TokenKind.comma, st.offset⟩, lexNext st c, rest)
  else if c = '.' then
    let offset := st.offset
    let st1 := lexNext st c
    let directive := rest.takeWhile rustIsAlphanumeric
    Except.ok (some ⟨TokenKind.directive (String.mk directive), offset⟩,
      consumeChars st1 directive, rest.dropWhile rustIsAlphanumeric)
  else if c = '"' then
    let offset := st.offset
    let st1 := lexNext st c
    let content := rest.takeWhile (fun ch => ch ≠ '"')
    let rest1 := rest.dropWhile (fun ch => ch ≠ '"')
    let st2 := consumeChars st1 content
    -- the closing-quote Reader::next: consumes the quote if present,
    -- otherwise still bumps offset and char_in_line at end of input
    match rest1 with
    | ch :: rest2 =>
      Except.ok (some ⟨TokenKind.str (String.mk content), offset⟩, lexNext st2 ch, rest2)
    | [] =>
      Except.ok (some ⟨TokenKind.str (String.mk content), offset⟩, lexNextEof st2, [])
  else if rustIsAlphabetic c then
    let offset := st.offset
    let symbol := (c :: rest).takeWhile (fun ch => rustIsAlphanumeric ch || ch = '_')
    Except.ok (some ⟨TokenKind.symbol (String.mk symbol), offset⟩,
      consumeChars st symbol, (c :: rest).dropWhile (fun ch => rustIsAlphanumeric ch || ch = '_'))
  else
    Except.error (lexerError st ("unexpected char " ++ String.mk [c]))

/-- The main lexing loop (Lexer::lex): peek, dispatch on the character,
collect tokens until the input is exhausted. Every successful step consumes
at least one character, so fuel `input.length + 1` never runs out. -/
def lexLoop (fuel : Nat) (st : LexState) (input : List Char) (acc : List Token) :
    Except LexError (List Token) :=
  match input with
  | [] => Except.ok acc.reverse
  | c :: rest =>
    match fuel with
    | 0 => Except.error (lexerError st "out of fuel")
    | fuel + 1 =>
      match lexStep st c rest with
      | Except.error e => Except.error e
      | Except.ok (none, st2, rem) => lexLoop fuel st2 rem acc
      | Except.ok (some t, st2, rem) => lexLoop fuel st2 rem (t :: acc)

def lex (input : List Char) : Except LexError (List Token) :=
  lexLoop (input.length + 1) ⟨0, 0, 0⟩ input []

def lexStr (source : String) : Except LexError (List Token) :=
  lex source.data

/-! ## Two-pass parser (parser.rs)

The parser owns a Reader over the token list. Pass 1 (find_labels) walks
every token updating the Reader counters and records Symbol tokens whose
post-consumption item_in_line equals 0; pass 2 walks the tokens again
emitting words for directives. The symbol table built in pass 1 is never
read by pass 2 in the source. -/

structure ParseError where
  message : String
deriving Repr, DecidableEq

/-- HashMap::insert on the label table: overwrites an existing binding. -/
def insertLabel (labels : List (String × Nat)) (key : String) (value : Nat) :
    List (String × Nat) :=
  (key, value) :: labels.filter (fun kv => kv.1 ≠ key)

/-- Parser::find_labels. Each iteration consumes one token with
Reader::next, which first updates the counters (a Newline token resets
item_in_line to 0 and bumps line; any other token bumps item_in_line), and
only then the Symbol check `self.reader.item_in_line == 0` runs on the
already-updated counter, so for a Symbol it tests `itemInLine + 1 = 0`. -/
def find_labels : List Token → Nat → Nat → List (String × Nat) → List (String × Nat)
  | [], _, _, labels => labels
  | t :: ts, itemInLine, line, labels =>
    match t.kind with
    | TokenKind.newline => find_labels ts 0 (line + 1) labels
    | TokenKind.symbol label =>
      if itemInLine + 1 = 0 then
        find_labels ts (itemInLine + 1) line (insertLabel labels label line)
      else
        find_labels ts (itemInLine + 1) line labels
    | _ => find_labels ts (itemInLine + 1) line labels

/-- The parser state threaded through pass 2: emitted words, the origin
recorded by .ORIG, and the pass-1 label table. -/
structure AsmState where
  instructions : List Nat
  orig : Option Nat
  labels : List (String × Nat)
deriving Repr, DecidableEq

/-- Parser::expect_number: consume the next token, demanding a Number. -/
def expect_number : List Token → Except ParseError (Nat × List Token)
  | ⟨TokenKind.number num, _⟩ :: ts => Except.ok (num, ts)
  | _ :: _ => Except.error { message := "expected a number" }
  | [] => Except.error { message := "unexpected end of input" }

/-- Parser::expect_string: consume the next token, demanding a Str. -/
def expect_string : List Token → Except ParseError (String × List Token)
  | ⟨TokenKind.str s, _⟩ :: ts => Except.ok (s, ts)
  | _ :: _ => Except.error { message := "expected a string literal" }
  | [] => Except.error { message := "unexpected end of input" }

/-- str::to_lowercase. The Rust function is Unicode-aware; it agrees with
the ASCII Char.toLower on every ASCII string, and all directive names in
this development are ASCII. -/
def toLowerString (s : String) : String := String.mk (s.data.map Char.toLower)

/-- Parser::parse_directive: dispatch on the lowercased directive name.
Returns the remaining tokens together with the updated state; the "end"
arm models `self.reader.offset = usize::MAX` by discarding the remaining
tokens. -/
def parse_directive (directive : String) (ts : List Token) (st : AsmState) :
    Except ParseError (List Token × AsmState) :=
  let d := toLowerString directive
  if d = "fill" then
    match expect_number ts with
    | Except.error e => Except.error e
    | Except.ok (num, ts1) =>
      Except.ok (ts1, { st with instructions := st.instructions ++ [num] })
  else if d = "stringz" then
    match expect_string ts with
    | Except.error e => Except.error e
    | Except.ok (s, ts1) =>
      Except.ok (ts1,
        { st with instructions := st.instructions ++ s.data.map Char.toNat ++ [0] })
  else if d = "blkw" then
    match expect_number ts with
    | Except.error e => Except.error e
    | Except.ok (num, ts1) =>
      Except.ok (ts1, { st with instructions := st.instructions ++ List.replicate num 0 })
  else if d = "orig" then
    match expect_number ts with
    | Except.error e => Except.error e
    | Except.ok (num, ts1) => Except.ok (ts1, { st with orig := some num })
  else if d = "end" then
    Except.ok ([], st)
  else
    Except.error { message := "unrecognized directive: " ++ directive }

/-- Pass 2 of Parser::parse: consume tokens, handling Directive tokens via
parse_directive and skipping every other kind. Fuel `tokens.length + 1`
always suffices since each iteration consumes the head token. -/
def parseLoop (fuel : Nat) (tokens : List Token) (st : AsmState) :
    Except ParseError AsmState :=
  match tokens with
  | [] => Except.ok st
  | t :: ts =>
    match fuel with
    | 0 => Except.error { message := "out of fuel" }
    | fuel + 1 =>
      match t.kind with
      | TokenKind.directive d =>
        match parse_directive d ts st with
        | Except.error e => Except.error e
        | Except.ok (ts1, st1) => parseLoop fuel ts1 st1
      | _ => parseLoop fuel ts st

/-- Parser::parse: run find_labels over all tokens (pass 1), reset the
Reader, then run pass 2 from the start. The final state carries the
emitted words, the recorded origin and the (unused) label table. -/
def parseFull (tokens : List Token) : Except ParseError AsmState :=
  parseLoop (tokens.length + 1) tokens
    { instructions := [], orig := none, labels := find_labels tokens 0 0 [] }

/-- parser::parse (the public function): Parser::new(tokens).parse(),
which returns only the instruction words; the orig and labels fields of
the parser are dropped. -/
def parse (tokens : List Token) : Except ParseError (List Nat) :=
  match parseFull tokens with
  | Except.error e => Except.error e
  | Except.ok st => Except.ok st.instructions

/-! ## Assembler entry point (assembler/mod.rs) -/

/-- Executable as defined in the source: it has a single field holding the
emitted words. There is no origin field. -/
structure Executable where
  instructions : List Nat
deriving Repr, DecidableEq

/-- ParseError::pretty returns the empty string in the source. -/
def ParseError.pretty (_e : ParseError) : String := ""

/-- str::lines: split on newline, dropping a trailing carriage return from
each line and a final empty line produced by a trailing newline. -/
def rustLines (s : String) : List String :=
  let parts := (s.splitOn ("\n")).map
    (fun l => if l.endsWith ("\r") then l.dropRight 1 else l)
  match parts.getLast? with
  | some "" => parts.dropLast
  | _ => parts

/-- LexError::pretty: renders the caret-marked excerpt. The source indexes
the offending line with `.nth(line).unwrap()`; the panic case (line out of
range, unreachable for errors this lexer produces) is modelled as the
empty string. -/
def LexError.pretty (e : LexError) (filename source : String) : String :=
  let line := (rustLines source).getD e.line ""
  let lineIndicator := toString e.line ++ " | "
  let markerLine :=
    String.mk (List.replicate (lineIndicator.length + e.character + 1) ' ') ++ "^ " ++ e.message
  filename ++ ":" ++ toString e.line ++ ":" ++ toString e.character ++
    "\n\nlex error: " ++ e.message ++ "\n" ++ lineIndicator ++
    (line.replace ("\t") (" ")) ++ "\n" ++ markerLine

/-- assemble (assembler/mod.rs): lex, parse, wrap the words in an
Executable; errors are rendered to strings via the pretty functions. -/
def assemble (filename source : String) : Except String Executable :=
  match lexStr source with
  | Except.error e => Except.error (e.pretty filename source)
  | Except.ok tokens =>
    match parse tokens with
    | Except.error e => Except.error e.pretty
    | Except.ok instructions => Except.ok { instructions }

/-! ## ISA codec (lc3/instructions.rs) -/

def OPCODE_ADD : Nat := 0b0001
def OPCODE_AND : Nat := 0b0101
def OPCODE_BR : Nat := 0b0000
def OPCODE_JMP : Nat := 0b1100
def OPCODE_JSR : Nat := 0b0100
def OPCODE_LD : Nat := 0b0010
def OPCODE_LDI : Nat := 0b1010
def OPCODE_LDR : Nat := 0b0110
def OPCODE_LEA : Nat := 0b1110
def OPCODE_NOT : Nat := 0b1001
def OPCODE_RTI : Nat := 0b1000
def OPCODE_ST : Nat := 0b0011
def OPCODE_STI : Nat := 0b1011
def OPCODE_STR : Nat := 0b0111
def OPCODE_TRAP : Nat := 0b1111

inductive Instruction where
  | Add (dest source_1 source_2 : Nat)
  | AddImmediate (dest source value : Nat)
  | And (dest source_1 source_2 : Nat)
  | AndImmediate (dest source value : Nat)
  | Br (n z p : Bool) (pc_offset : Nat)
  | Jmp (base : Nat)
  | Ret
  | Jsr (pc_offset : Nat)
  | JsrR (base : Nat)
  | Ld (dest pc_offset : Nat)
  | LdI (dest pc_offset : Nat)
  | LdR (dest base offset : Nat)
  | Lea (dest pc_offset : Nat)
  | Not (dest source : Nat)
  | Rti
  | St (source pc_offset : Nat)
  | StI (source pc_offset : Nat)
  | StR (source base offset : Nat)
  | Trap (vec : Nat)
  | Illegal
deriving Repr, DecidableEq

/-- slice_bits: extract the inclusive bit range `hi..lo` (bits indexed from
15 down to 0 in the source comments). -/
def slice_bits (instruction hi lo : Nat) : Nat :=
  (instruction >>> lo) &&& ((1 <<< (hi - lo + 1)) - 1)

def is_bit_set (instruction bit : Nat) : Bool :=
  instruction &&& (1 <<< bit) == 1 <<< bit

/-- sign_extend: if bit `size - 1` is set, OR in every bit above it up to
bit 15; otherwise return the value unchanged. -/
def sign_extend (n size : Nat) : Nat :=
  if is_bit_set n (size - 1) then
    n ||| (0b1111111111111111 ^^^ ((1 <<< size) - 1))
  else
    n

/-- The body of Instruction::from after the opcode nibble has been
extracted: the match over the opcode constants. -/
def decode_opcode (opcode instruction : Nat) : Instruction :=
  if opcode = OPCODE_ADD then
    if is_bit_set instruction 5 then
      Instruction.AddImmediate (slice_bits instruction 11 9) (slice_bits instruction 8 6)
        (sign_extend (slice_bits instruction 4 0) 5)
    else
      Instruction.Add (slice_bits instruction 11 9) (slice_bits instruction 8 6)
        (slice_bits instruction 2 0)
  else if opcode = OPCODE_AND then
    if is_bit_set instruction 5 then
      Instruction.AndImmediate (slice_bits instruction 11 9) (slice_bits instruction 8 6)
        (sign_extend (slice_bits instruction 4 0) 5)
    else
      Instruction.And (slice_bits instruction 11 9) (slice_bits instruction 8 6)
        (slice_bits instruction 2 0)
  else if opcode = OPCODE_BR then
    Instruction.Br (is_bit_set instruction 11) (is_bit_set instruction 10)
      (is_bit_set instruction 9) (sign_extend (slice_bits instruction 8 0) 9)
  else if opcode = OPCODE_JMP then
    if slice_bits instruction 8 6 = 0b111 then Instruction.Ret
    else Instruction.Jmp (slice_bits instruction 8 6)
  else if opcode = OPCODE_JSR then
    if is_bit_set instruction 11 then
      Instruction.Jsr (sign_extend (slice_bits instruction 10 0) 11)
    else
      Instruction.JsrR (slice_bits instruction 8 6)
  else if opcode = OPCODE_LD then
    Instruction.Ld (slice_bits instruction 11 9) (sign_extend (slice_bits instruction 8 0) 9)
  else if opcode = OPCODE_LDI then
    Instruction.LdI (slice_bits instruction 11 9) (sign_extend (slice_bits instruction 8 0) 9)
  else if opcode = OPCODE_LDR then
    Instruction.LdR (slice_bits instruction 11 9) (slice_bits instruction 8 6)
      (sign_extend (slice_bits instruction 5 0) 6)
  else if opcode = OPCODE_LEA then
    Instruction.Lea (slice_bits instruction 11 9) (sign_extend (slice_bits instruction 8 0) 9)
  else if opcode = OPCODE_NOT then
    Instruction.Not (slice_bits instruction 11 9) (slice_bits instruction 8 6)
  else if opcode = OPCODE_RTI then
    Instruction.Rti
  else if opcode = OPCODE_ST then
    Instruction.St (slice_bits instruction 11 9) (sign_extend (slice_bits instruction 8 0) 9)
  else if opcode = OPCODE_STI then
    Instruction.StI (slice_bits instruction 11 9) (sign_extend (slice_bits instruction 8 0) 9)
  else if opcode = OPCODE_STR then
    Instruction.StR (slice_bits instruction 11 9) (slice_bits instruction 8 6)
      (sign_extend (slice_bits instruction 5 0) 6)
  else if opcode = OPCODE_TRAP then
    Instruction.Trap (slice_bits instruction 7 0)
  else
    Instruction.Illegal

/-- Instruction::from: decode dispatches on the opcode nibble
slice_bits(instruction, 15, 12). (`from` is a reserved word in Lean, hence
the name fromWord.) -/
def Instruction.fromWord (instruction : Nat) : Instruction :=
  decode_opcode (slice_bits instruction 15 12) instruction

/-! ## Machine (lc3/mod.rs) -/

/-- The VM state. The source allocates the memory array with size 0xFFFF
(65535), not 0x10000; the embedding reproduces that size exactly. -/
structure Machine where
  memory : List Nat
  regs : List Nat
  pc : Nat
  cc_neg : Nat
  cc_pos : Nat
  cc_zero : Nat

def Machine.new : Machine :=
  { memory := List.replicate 0xFFFF 0
    regs := List.replicate 8 0
    pc := 0
    cc_neg := 0
    cc_pos := 0
    cc_zero := 0 }

/-- Machine::get_reg: `self.regs[reg as usize]`. Register indices produced
by decode are 3-bit fields (< 8), so the Rust index never panics; the
out-of-range default 0 here is unreachable for those. -/
def Machine.get_reg (m : Machine) (reg : Nat) : Nat := m.regs.getD reg 0

/-- Machine::set_reg: `self.regs[reg as usize] = val` (out-of-range writes,
unreachable for decoded indices, are a panic in Rust and a no-op here). -/
def Machine.set_reg (m : Machine) (reg val : Nat) : Machine :=
  { m with regs := m.regs.set reg val }

/-- Machine::execute: only the register-register Add arm is implemented in
the source; every other instruction falls through the `_ => {}` arm and
leaves the machine unchanged. The u16 addition is modelled with
wrap-around (a debug build would panic on overflow). -/
def Machine.execute (m : Machine) (instruction : Instruction) : Machine :=
  match instruction with
  | Instruction.Add dest source_1 source_2 =>
    m.set_reg dest ((m.get_reg source_1 + m.get_reg source_2) % 65536)
  | _ => m

/-- Machine::run: decode each word and execute it in order. -/
def Machine.run (m : Machine) (instructions : List Nat) : Machine :=
  instructions.foldl (fun acc w => acc.execute (Instruction.fromWord w)) m

/-- The from_regs helper of the tests in lc3/mod.rs: a machine with the
given registers and otherwise zeroed state (memory again 0xFFFF words). -/
def from_regs (regs : List Nat) : Machine :=
  { memory := List.replicate 0xFFFF 0
    regs
    pc := 0
    cc_neg := 0
    cc_pos := 0
    cc_zero := 0 }

/-! ## Helper lemmas -/

theorem find_labels_acc (ts : List Token) :
    ∀ itemInLine line labels, find_labels ts itemInLine line labels = labels := by
  induction ts with
  | nil => intro i l labels; rfl
  | cons t ts ih =>
    intro i l labels
    cases h : t.kind <;> simp [find_labels, h, ih]

theorem takeWhile_eq_self_of_all {α : Type} (p : α → Bool) (l : List α)
    (h : ∀ a ∈ l, p a = true) : l.takeWhile p = l := by
  induction l with
  | nil => rfl
  | cons a l ih =>
    have ha : p a = true := h a (List.mem_cons_self a l)
    simp [List.takeWhile, ha]
    exact fun b hb => h b (List.mem_cons_of_mem a hb)

theorem dropWhile_eq_nil_of_all {α : Type} (p : α → Bool) (l : List α)
    (h : ∀ a ∈ l, p a = true) : l.dropWhile p = [] := by
  induction l with
  | nil => rfl
  | cons a l ih =>
    have ha : p a = true := h a (List.mem_cons_self a l)
    simp [List.dropWhile, ha]
    exact fun b hb => h b (List.mem_cons_of_mem a hb)

theorem charDigit_alphanumeric {radix : Nat} {c : Char} {d : Nat}
    (h : charDigit radix c = some d) : rustIsAlphanumeric c = true := by
  unfold charDigit at h
  simp [rustIsAlphanumeric, rustIsAlphabetic, rustIsDigit]
  split_ifs at h with h1 h2 h3 h4 h5 h6 <;> omega

theorem fromStrRadixGo_digits {radix acc n : Nat} {l : List Char}
    (h : fromStrRadixGo radix acc l = Except.ok n) :
    ∀ c ∈ l, rustIsAlphanumeric c = true := by
  induction l generalizing acc with
  | nil => intro c hc; cases hc
  | cons a l ih =>
    intro c hc
    unfold fromStrRadixGo at h
    cases hd : charDigit radix a with
    | none => rw [hd] at h; cases h
    | some d =>
      rw [hd] at h
      dsimp only at h
      split_ifs at h with hle
      rcases List.mem_cons.mp hc with rfl | hc2
      · exact charDigit_alphanumeric hd
      · exact ih h c hc2

theorem fromStrRadix_digits {radix n : Nat} {l : List Char}
    (h : fromStrRadix radix l = Except.ok n) :
    ∀ c ∈ l, rustIsAlphanumeric c = true := by
  unfold fromStrRadix at h
  cases l with
  | nil => intro c hc; cases hc
  | cons a l => exact fromStrRadixGo_digits h

/-! ## Claim theorems -/

/-- Claim C1 is refuted by this theorem: pass 1 never binds any symbol at
all, because Reader::next has already incremented item_in_line for the
consumed Symbol token when find_labels tests `item_in_line == 0`, so the
test reads `itemInLine + 1 = 0`, which no Nat satisfies. In particular the
token stream [Symbol "A"], whose Symbol is the first token of its line,
produces an empty symbol table instead of binding "A" to line 0. -/
theorem find_labels_never_binds :
    (∀ (ts : List Token), find_labels ts 0 0 [] = []) ∧
    find_labels [⟨TokenKind.symbol "A", 0⟩] 0 0 [] = [] := by
  refine ⟨fun ts => find_labels_acc ts 0 0 [], find_labels_acc _ 0 0 []⟩

/-- Claim C3 is refuted at its own concrete input: executing
Add{dest:0, source_1:0, source_2:1} on a machine with R0=1, R1=2 stores 3
in R0 as claimed, but sets none of the N/Z/P condition codes — the Add arm
of Machine::execute only writes the destination register, so all three
condition-code fields stay 0 and no flag reflects the positive result. -/
theorem add_sets_no_condition_code :
    ((from_regs [1, 2, 0, 0, 0, 0, 0, 0]).execute (Instruction.Add 0 0 1)).regs
        = [3, 2, 0, 0, 0, 0, 0, 0] ∧
    ((from_regs [1, 2, 0, 0, 0, 0, 0, 0]).execute (Instruction.Add 0 0 1)).cc_neg = 0 ∧
    ((from_regs [1, 2, 0, 0, 0, 0, 0, 0]).execute (Instruction.Add 0 0 1)).cc_zero = 0 ∧
    ((from_regs [1, 2, 0, 0, 0, 0, 0, 0]).execute (Instruction.Add 0 0 1)).cc_pos = 0 := by
  exact ⟨rfl, rfl, rfl, rfl⟩

/-- Claim C4 is refuted by this theorem: Machine::execute sends the
Illegal variant through the catch-all `_ => {}` arm, so executing it
returns the machine completely unchanged — a silent no-op, with no fault
and no error report of any kind. -/
theorem illegal_executes_as_silent_noop :
    ∀ (m : Machine), m.execute Instruction.Illegal = m := by
  intro m; rfl

/-- Claim C5 is refuted by this theorem: the memory array created by
Machine::new has exactly 0xFFFF = 65535 words, one short of the 65536
demanded by the claim, so address 0xFFFF is not addressable. -/
theorem machine_memory_is_65535_words :
    Machine.new.memory.length = 65535 ∧ Machine.new.memory.length ≠ 65536 := by
  have hmem : Machine.new.memory = List.replicate 0xFFFF 0 := rfl
  rw [hmem, List.length_replicate]
  exact ⟨rfl, by omega⟩

theorem slice_bits_opcode_le (w : Nat) : slice_bits w 15 12 ≤ 15 := by
  show (w >>> 12) &&& ((1 <<< (15 - 12 + 1)) - 1) ≤ 15
  norm_num
  exact Nat.and_le_right

theorem decode_opcode_illegal_iff (o w : Nat) (ho : o ≤ 15) :
    decode_opcode o w = Instruction.Illegal ↔ o = 13 := by
  interval_cases o <;>
    simp [decode_opcode, OPCODE_ADD, OPCODE_AND, OPCODE_BR, OPCODE_JMP, OPCODE_JSR,
      OPCODE_LD, OPCODE_LDI, OPCODE_LDR, OPCODE_LEA, OPCODE_NOT, OPCODE_RTI,
      OPCODE_ST, OPCODE_STI, OPCODE_STR, OPCODE_TRAP] <;>
    (try (split <;> simp))

/-- Claim C2: decode is total by construction (Instruction::from returns a
plain Instruction, with no error channel), and for every 16-bit word the
decoded value is the explicit Illegal variant exactly when the opcode
nibble is 0b1101, the single nibble absent from the fifteen-opcode decode
table. -/
theorem decode_illegal_iff_nibble_13 (w : Nat) (hw : w < 65536) :
    Instruction.fromWord w = Instruction.Illegal ↔ slice_bits w 15 12 = 0b1101 := by
  exact decode_opcode_illegal_iff (slice_bits w 15 12) w (slice_bits_opcode_le w)

theorem decode_illegal_iff_nibble_13_witness :
    0xD000 < 65536 ∧
      (Instruction.fromWord 0xD000 = Instruction.Illegal ↔ slice_bits 0xD000 15 12 = 0b1101) :=
  ⟨by decide, decode_illegal_iff_nibble_13 0xD000 (by decide)⟩

/-- Claim C9: for the widths 5, 6, 9, 11 used by the ISA and any value of
that width, sign_extend leaves a value with a clear sign bit unchanged;
when the sign bit is set it forces every bit from `width` through 15 to 1
while preserving the low `width` bits, and the result stays a 16-bit
value; and sign_extend is idempotent at the given width. -/
theorem is_bit_set_eq_testBit (n b : Nat) : is_bit_set n b = n.testBit b := by
  unfold is_bit_set
  rw [Nat.one_shiftLeft, Nat.and_two_pow]
  cases h : n.testBit b
  · simpa using (Nat.two_pow_pos b).ne
  · simp

theorem sign_extend_mask_testBit (w i : Nat) :
    (65535 ^^^ ((1 <<< w) - 1)).testBit i = (decide (i < 16) ^^ decide (i < w)) := by
  have h65535 : (65535 : Nat) = 2 ^ 16 - 1 := by norm_num
  rw [h65535, Nat.one_shiftLeft, Nat.testBit_xor, Nat.testBit_two_pow_sub_one,
    Nat.testBit_two_pow_sub_one]

theorem sign_extend_correct (w v : Nat)
    (hw : w = 5 ∨ w = 6 ∨ w = 9 ∨ w = 11) (hv : v < 2 ^ w) :
    (is_bit_set v (w - 1) = false → sign_extend v w = v) ∧
    (is_bit_set v (w - 1) = true →
      (∀ i, i ≤ 15 → w ≤ i → (sign_extend v w).testBit i = true) ∧
      (∀ i, i < w → (sign_extend v w).testBit i = v.testBit i) ∧
      sign_extend v w < 2 ^ 16) ∧
    sign_extend (sign_extend v w) w = sign_extend v w := by
  have hw16 : w ≤ 16 := by rcases hw with rfl | rfl | rfl | rfl <;> norm_num
  refine ⟨fun h => by simp [sign_extend, h], fun h => ?_, ?_⟩
  · have hse : sign_extend v w = v ||| (65535 ^^^ ((1 <<< w) - 1)) := by
      simp [sign_extend, h]
    refine ⟨?_, ?_, ?_⟩
    · intro i h15 hwi
      rw [hse, Nat.testBit_or, sign_extend_mask_testBit]
      have h1 : decide (i < 16) = true := by simp; omega
      have h2 : decide (i < w) = false := by simp; omega
      simp [h1, h2]
    · intro i hiw
      rw [hse, Nat.testBit_or, sign_extend_mask_testBit]
      have h1 : decide (i < 16) = true := by simp; omega
      have h2 : decide (i < w) = true := by simp; omega
      simp [h1, h2]
    · rw [hse]
      have hv16 : v < 2 ^ 16 := lt_of_lt_of_le hv (Nat.pow_le_pow_right (by norm_num) hw16)
      have hm : (65535 ^^^ ((1 <<< w) - 1)) < 2 ^ 16 := by
        apply Nat.xor_lt_two_pow (by norm_num)
        have : (1 <<< w) - 1 < 2 ^ w := by
          rw [Nat.one_shiftLeft]
          have := Nat.two_pow_pos w
          omega
        exact lt_of_lt_of_le this (Nat.pow_le_pow_right (by norm_num) hw16)
      exact Nat.or_lt_two_pow hv16 hm
  · cases h : is_bit_set v (w - 1)
    · simp [sign_extend, h]
    · have hse : sign_extend v w = v ||| (65535 ^^^ ((1 <<< w) - 1)) := by
        simp [sign_extend, h]
      have hbit : is_bit_set (sign_extend v w) (w - 1) = true := by
        rw [is_bit_set_eq_testBit, hse, Nat.testBit_or]
        rw [is_bit_set_eq_testBit] at h
        simp [h]
      rw [hse] at hbit ⊢
      simp [sign_extend, hbit, Nat.or_assoc]

theorem sign_extend_correct_witness :
    ((5 = 5 ∨ 5 = 6 ∨ 5 = 9 ∨ 5 = 11) ∧ 17 < 2 ^ 5) ∧
    ((is_bit_set 17 (5 - 1) = false → sign_extend 17 5 = 17) ∧
      (is_bit_set 17 (5 - 1) = true →
        (∀ i, i ≤ 15 → 5 ≤ i → (sign_extend 17 5).testBit i = true) ∧
        (∀ i, i < 5 → (sign_extend 17 5).testBit i = Nat.testBit 17 i) ∧
        sign_extend 17 5 < 2 ^ 16) ∧
      sign_extend (sign_extend 17 5) 5 = sign_extend 17 5) :=
  ⟨⟨Or.inl rfl, by decide⟩, sign_extend_correct 5 17 (Or.inl rfl) (by decide)⟩

/-- Claim C7: a .FILL directive (any spelling whose lowercase form is
"fill") whose next token exists but is not a Number fails with
"expected a number", and one with no following token fails with
"unexpected end of input"; in both cases parse returns the bare ParseError
and no word list, so assembly stops at the first error with no partial
output. -/
theorem fill_operand_errors (name : String) (o : Nat) (t : Token) (rest : List Token)
    (hname : toLowerString name = "fill")
    (ht : ∀ k, t.kind ≠ TokenKind.number k) :
    parse (⟨TokenKind.directive name, o⟩ :: t :: rest) =
      Except.error { message := "expected a number" } ∧
    parse [⟨TokenKind.directive name, o⟩] =
      Except.error { message := "unexpected end of input" } := by
  constructor
  · obtain ⟨tk, toff⟩ := t
    cases tk with
    | number k => exact absurd rfl (ht k)
    | directive d => simp [parse, parseFull, parseLoop, parse_directive, hname, expect_number]
    | symbol s => simp [parse, parseFull, parseLoop, parse_directive, hname, expect_number]
    | comma => simp [parse, parseFull, parseLoop, parse_directive, hname, expect_number]
    | str s => simp [parse, parseFull, parseLoop, parse_directive, hname, expect_number]
    | newline => simp [parse, parseFull, parseLoop, parse_directive, hname, expect_number]
  · simp [parse, parseFull, parseLoop, parse_directive, hname, expect_number]

theorem fill_operand_errors_witness :
    (toLowerString "FILL" = "fill" ∧ ∀ k, TokenKind.comma ≠ TokenKind.number k) ∧
    (parse [⟨TokenKind.directive "FILL", 0⟩, ⟨TokenKind.comma, 5⟩] =
        Except.error { message := "expected a number" } ∧
      parse [⟨TokenKind.directive "FILL", 0⟩] =
        Except.error { message := "unexpected end of input" }) :=
  ⟨⟨by decide, by simp⟩,
    fill_operand_errors "FILL" 0 ⟨TokenKind.comma, 5⟩ [] (by decide) (by simp)⟩

/-- Claim C6 is refuted at a concrete successful assembly: lexing and
parsing ".orig x3000\n.fill #1" records origin 0x3000 = 12288 in the
parser state, but parser::parse drops that field and assemble returns an
Executable that carries only the emitted words — the Executable struct in
the source has no origin field at all, so no Executable whose origin
equals the .ORIG operand is ever produced. -/
theorem orig_recorded_then_dropped :
    lexStr ".orig x3000\n.fill #1" =
      Except.ok [⟨TokenKind.directive "orig", 0⟩, ⟨TokenKind.number 12288, 6⟩,
        ⟨TokenKind.newline, 11⟩, ⟨TokenKind.directive "fill", 12⟩, ⟨TokenKind.number 1, 18⟩] ∧
    parseFull [⟨TokenKind.directive "orig", 0⟩, ⟨TokenKind.number 12288, 6⟩,
        ⟨TokenKind.newline, 11⟩, ⟨TokenKind.directive "fill", 12⟩, ⟨TokenKind.number 1, 18⟩] =
      Except.ok { instructions := [1], orig := some 12288, labels := [] } ∧
    assemble "prog.asm" ".orig x3000\n.fill #1" = Except.ok { instructions := [1] } := by
  refine ⟨by decide, by decide, by decide⟩

/-- Claim C10: when the lexer hits a character matching no lexing rule as
the first character of a line (char_in_line still 0, nothing of the line
consumed), Lexer::error computes `char_in_line - 1` on the usize counter;
the subtraction underflows (wrapping to usize::MAX in release builds,
panicking in debug builds), so lex reports a LexError whose character
field is usize::MAX rather than the 0 a structured diagnostic would
need. -/
theorem unexpected_char_at_line_start_underflows (c : Char) (cs : List Char)
    (h1 : c ≠ '\n') (h2 : rustIsWhitespace c = false) (h3 : c ≠ ';') (h4 : c ≠ 'x')
    (h5 : c ≠ '#') (h6 : rustIsDigit c = false) (h7 : c ≠ '-') (h8 : c ≠ ',')
    (h9 : c ≠ '.') (h10 : c ≠ '"') (h11 : rustIsAlphabetic c = false) :
    lex (c :: cs) =
      Except.error
        { message := ("unexpected char " ++ String.mk [c]), line := 0, character := USIZE_MAX } ∧
    USIZE_MAX ≠ 0 := by
  constructor
  · simp [lex, lexLoop, lexStep, h1, h2, h3, h4, h5, h6, h7, h8, h9, h10, h11,
      lexerError, usizeSub1, USIZE_MAX]
  · simp [USIZE_MAX]

theorem unexpected_char_at_line_start_underflows_witness :
    (('$' ≠ '\n') ∧ rustIsWhitespace '$' = false ∧ ('$' ≠ ';') ∧ ('$' ≠ 'x') ∧
      ('$' ≠ '#') ∧ rustIsDigit '$' = false ∧ ('$' ≠ '-') ∧ ('$' ≠ ',') ∧
      ('$' ≠ '.') ∧ ('$' ≠ '"') ∧ rustIsAlphabetic '$' = false) ∧
    (lex ['$'] =
        Except.error
          { message := ("unexpected char " ++ String.mk ['$']), line := 0,
            character := USIZE_MAX } ∧
      USIZE_MAX ≠ 0) :=
  ⟨by decide,
    unexpected_char_at_line_start_underflows '$' [] (by decide) (by decide) (by decide)
      (by decide) (by decide) (by decide) (by decide) (by decide) (by decide) (by decide)
      (by decide)⟩

/-- Claim C8: a decimal literal `#-D` whose digit run D parses (per
u16::from_str_radix) as the value n lexes to the single Number token
flip_sign_twos_complement n = !(n - 1), the two's-complement negation of n
on 16 bits; in particular lex "#-1" yields the very same token as
lex "#65535", the Number value 0b1111111111111111. -/
theorem negative_decimal_lexes_twos_complement (D : List Char) (n : Nat)
    (h : fromStrRadix 10 D = Except.ok n) :
    lex ('#' :: '-' :: D) = Except.ok [⟨TokenKind.number (flip_sign_twos_complement n), 0⟩] ∧
    lexStr "#-1" = lexStr "#65535" ∧
    lexStr "#-1" = Except.ok [⟨TokenKind.number 0b1111111111111111, 0⟩] := by
  refine ⟨?_, by decide, by decide⟩
  have hdig := fromStrRadix_digits h
  have htake := takeWhile_eq_self_of_all rustIsAlphanumeric D hdig
  have hdrop := dropWhile_eq_nil_of_all rustIsAlphanumeric D hdig
  simp [lex, lexLoop, lexStep, lexDecimal, lexDecimalDigits, htake, hdrop, h,
    rustIsWhitespace, rustIsDigit, rustIsAlphabetic]

theorem negative_decimal_lexes_twos_complement_witness :
    fromStrRadix 10 ['1'] = Except.ok 1 ∧
    (lex ('#' :: '-' :: ['1']) =
        Except.ok [⟨TokenKind.number (flip_sign_twos_complement 1), 0⟩] ∧
      lexStr "#-1" = lexStr "#65535" ∧
      lexStr "#-1" = Except.ok [⟨TokenKind.number 0b1111111111111111, 0⟩]) :=
  ⟨by decide, negative_decimal_lexes_twos_complement ['1'] 1 (by decide)⟩
